import Mathlib

/-!
Verification of `b2sdk/account_info/abstract.py` (the `AbstractAccountInfo`
credential / lease cache) against its natural-language specification.

The Python code is shallowly embedded: strings become `List Char`,
Python dicts with a fixed key set become structures whose fields are
`Option` (a `none` field models an absent key), fallible code returns
`Except StoreError`, and the relevant parts of the standard library
`urllib.parse` module (`urlparse`, `ParseResult.geturl`) are embedded
following CPython's algorithms.
-/

set_option autoImplicit false

namespace B2

/-! ### Generic list-splitting utilities (models of Python `str` operations) -/

/-- Model of `s.split(sep, 1)` when it yields two pieces: split at the FIRST
occurrence of `sep`; `none` when `sep` does not occur (in which case the
Python two-variable unpacking of the one-element list raises `ValueError`). -/
def splitFirst (sep : Char) : List Char → Option (List Char × List Char)
  | [] => none
  | c :: cs =>
    if c = sep then some ([], cs)
    else
      match splitFirst sep cs with
      | none => none
      | some (a, b) => some (c :: a, b)

/-- Split at the LAST occurrence of `sep` (models `rfind`-based slicing). -/
def splitLast (sep : Char) (l : List Char) : Option (List Char × List Char) :=
  match splitFirst sep l.reverse with
  | none => none
  | some (a, b) => some (b.reverse, a.reverse)

/-- Take the longest leading run of characters not in `stops`; return it and
the rest (models CPython `_splitnetloc`: cut at the first of a set of
delimiters). -/
def takeUntilAny (stops : List Char) : List Char → List Char × List Char
  | [] => ([], [])
  | c :: cs =>
    if c ∈ stops then ([], c :: cs)
    else
      let p := takeUntilAny stops cs
      (c :: p.1, p.2)

/-- Model of Python `str.lower()` on the ASCII strings we deal with. -/
def lowerChars (l : List Char) : List Char := l.map Char.toLower

/-! ### The `allowed` structure and its validity predicate -/

/-- Universe of Python values that can sit in an `allowed` dict entry.
`allCapabilitiesVal` models the opaque constant `ALL_CAPABILITIES` imported
from `b2sdk.raw_api` (that module is not part of this repository's core;
the spec treats it as "an opaque constant set" of capability strings). -/
inductive PyVal where
  | pyNone : PyVal
  | pyStr (s : List Char) : PyVal
  | pyStrList (l : List (List Char)) : PyVal
  | allCapabilitiesVal : PyVal
deriving DecidableEq

/-- Modelled from the spec: the capability universe `ALL_CAPABILITIES` from
`b2sdk.raw_api` (not under the embedded sources) is "a fixed enumerated set
of capability strings ... treated as an opaque constant set"; its elements
never influence any property below, so it is embedded as an opaque token. -/
def ALL_CAPABILITIES : PyVal := PyVal.allCapabilitiesVal

/-- A Python dict holding (at most) the four keys the code inspects.
A field equal to `none` models an ABSENT key; `some v` models a present key
whose value is `v` (possibly the Python `None`, i.e. `PyVal.pyNone`). -/
structure AllowedDict where
  bucketId : Option PyVal
  bucketName : Option PyVal
  capabilities : Option PyVal
  namePrefixKey : Option PyVal
deriving DecidableEq

/-- Embedding of `AbstractAccountInfo.DEFAULT_ALLOWED`: the legacy default `allowed`
structure (all restrictions absent, full capability set). The source key
spelled `namePrefixKey` here corresponds to the dict key "namePrefix". -/
def DEFAULT_ALLOWED : AllowedDict :=
  ⟨some PyVal.pyNone, some PyVal.pyNone, some ALL_CAPABILITIES, some PyVal.pyNone⟩

/-- Embedding of `AbstractAccountInfo.allowed_is_valid`, translated clause by clause:
`('bucketId' in allowed) and ('bucketName' in allowed) and
((allowed['bucketId'] is not None) or (allowed['bucketName'] is None)) and
('capabilities' in allowed) and ('namePrefix' in allowed)`.
The `Option.getD` defaults are irrelevant: `&&` short-circuits exactly where
Python's `and` protects the subscript accesses. -/
def allowed_is_valid (a : AllowedDict) : Bool :=
  (AllowedDict.bucketId a).isSome &&
  (AllowedDict.bucketName a).isSome &&
  (decide ((AllowedDict.bucketId a).getD PyVal.pyNone ≠ PyVal.pyNone) ||
   decide ((AllowedDict.bucketName a).getD PyVal.pyNone = PyVal.pyNone)) &&
  (AllowedDict.capabilities a).isSome &&
  (AllowedDict.namePrefixKey a).isSome

/-! ### Embedding of the used fragment of CPython `urllib.parse`

The embedding follows CPython 3.x (the era of this code); the parse cache
is omitted (no observable effect). CPython's `urlsplit` raises `ValueError`
on a netloc carrying a mismatched square bracket ("Invalid IPv6 URL") and,
via `_checknetloc`, on a nonempty non-ASCII netloc whose NFKC normalization
introduces a separator character. Both rejections are modelled by
`urlsplitRaises` below: the bracket condition exactly, the NFKC condition
conservatively (every nonempty non-ASCII netloc is rejected, NFKC
normalization being outside this embedding; the model is exact on ASCII
netlocs, and every theorem below that asserts a successful parse constrains
the netloc to ASCII). The component computation itself is kept total in
`urlsplit`, and `construct_s3_api_url` — the sole caller of `urlparse` in
the source — checks `urlsplitRaises` before consuming the components, so
the `ValueError` surfaces at the same observable point as in the source. -/

/-- The characters CPython allows in a URL scheme. -/
def scheme_chars : List Char :=
  String.toList "abcdefghijklmnopqrstuvwxyzABCDEFGHIJKLMNOPQRSTUVWXYZ0123456789+-."

/-- CPython `uses_params`: the schemes for which `urlparse` splits `;params`
out of the last path segment. -/
def uses_params : List (List Char) :=
  [String.toList "", String.toList "ftp", String.toList "hdl",
   String.toList "prospero", String.toList "http", String.toList "imap",
   String.toList "https", String.toList "ftps", String.toList "shttp",
   String.toList "rtsp", String.toList "rtspu", String.toList "sip",
   String.toList "sips", String.toList "mms", String.toList "sftp",
   String.toList "tel"]

/-- Scheme extraction step of `urlsplit`: `i = url.find(':')`; when `i > 0`
and every character before the colon is a scheme character, the scheme is
the lowercased prefix and the rest follows the colon. -/
def splitScheme (url : List Char) : List Char × List Char :=
  match splitFirst ':' url with
  | some (pre, post) =>
    if pre ≠ [] ∧ ∀ c ∈ pre, c ∈ scheme_chars then (lowerChars pre, post)
    else ([], url)
  | none => ([], url)

/-- Netloc extraction step of `urlsplit`: when the rest starts with `//`,
the network location runs up to the first of `/`, `?`, `#`. -/
def splitNetloc (rest : List Char) : List Char × List Char :=
  if rest.take 2 = ['/', '/'] then takeUntilAny ['/', '?', '#'] (rest.drop 2)
  else ([], rest)

/-- Fragment step: `if '#' in url: url, fragment = url.split('#', 1)`. -/
def splitFragmentPart (rest : List Char) : List Char × List Char :=
  match splitFirst '#' rest with
  | some (a, b) => (a, b)
  | none => (rest, [])

/-- Query step: `if '?' in url: url, query = url.split('?', 1)`. -/
def splitQueryPart (rest : List Char) : List Char × List Char :=
  match splitFirst '?' rest with
  | some (a, b) => (a, b)
  | none => (rest, [])

/-- Result of `urlsplit`: `(scheme, netloc, path, query, fragment)`. -/
structure SplitResult where
  scheme : List Char
  netloc : List Char
  path : List Char
  query : List Char
  fragment : List Char
deriving DecidableEq

/-- CPython `urlsplit` with `allow_fragments=True`. -/
def urlsplit (url : List Char) : SplitResult :=
  let sp := splitScheme url
  let nl := splitNetloc sp.2
  let fr := splitFragmentPart nl.2
  let qu := splitQueryPart fr.1
  ⟨sp.1, nl.1, qu.1, qu.2, fr.2⟩

/-- Conditions on a computed netloc under which CPython `urlsplit` raises
`ValueError`: a `[` without a `]` or a `]` without a `[` (the "Invalid IPv6
URL" check), or — modelling `_checknetloc` conservatively, see the section
comment — a nonempty netloc containing a non-ASCII character. -/
def urlsplitNetlocRejects (netloc : List Char) : Bool :=
  (decide ('[' ∈ netloc) && !decide (']' ∈ netloc)) ||
  (decide (']' ∈ netloc) && !decide ('[' ∈ netloc)) ||
  (!netloc.isEmpty && !netloc.all (fun c => decide (c.toNat < 128)))

/-- CPython `urlsplit` raises `ValueError` on this input (the netloc it
computes fails the bracket / `_checknetloc` validation). -/
def urlsplitRaises (url : List Char) : Bool :=
  urlsplitNetlocRejects (SplitResult.netloc (urlsplit url))

/-- CPython `_splitparams`: find the first `;` at or after the last `/`
(or the first `;` anywhere when the path has no `/`); split there. -/
def splitparams (path : List Char) : List Char × List Char :=
  match splitLast '/' path with
  | some (a, b) =>
    match splitFirst ';' b with
    | some (p, q) => (a ++ '/' :: p, q)
    | none => (path, [])
  | none =>
    match splitFirst ';' path with
    | some (p, q) => (p, q)
    | none => (path, [])

/-- Result of `urlparse`: `(scheme, netloc, path, params, query, fragment)`. -/
structure ParseResult where
  scheme : List Char
  netloc : List Char
  path : List Char
  params : List Char
  query : List Char
  fragment : List Char
deriving DecidableEq

/-- CPython `urlparse`: `urlsplit`, then split `;params` off the path for
the schemes in `uses_params`. -/
def urlparse (url : List Char) : ParseResult :=
  let s := urlsplit url
  if SplitResult.scheme s ∈ uses_params ∧ ';' ∈ SplitResult.path s then
    let pr := splitparams (SplitResult.path s)
    ⟨SplitResult.scheme s, SplitResult.netloc s, pr.1, pr.2,
     SplitResult.query s, SplitResult.fragment s⟩
  else
    ⟨SplitResult.scheme s, SplitResult.netloc s, SplitResult.path s, [],
     SplitResult.query s, SplitResult.fragment s⟩

/-- CPython `urlunsplit`. -/
def urlunsplit (scheme netloc path query fragment : List Char) : List Char :=
  let url1 :=
    if netloc ≠ [] ∨ (path ≠ [] ∧ path.take 2 = ['/', '/']) then
      let p := if path ≠ [] ∧ path.take 1 ≠ ['/'] then '/' :: path else path
      '/' :: '/' :: (netloc ++ p)
    else path
  let url2 := if scheme ≠ [] then scheme ++ ':' :: url1 else url1
  let url3 := if query ≠ [] then url2 ++ '?' :: query else url2
  if fragment ≠ [] then url3 ++ '#' :: fragment else url3

/-- CPython `ParseResult.geturl` = `urlunparse`: re-join `;params` onto the
path when params is nonempty, then `urlunsplit`. -/
def geturl (u : ParseResult) : List Char :=
  let path :=
    if ParseResult.params u ≠ [] then
      ParseResult.path u ++ ';' :: ParseResult.params u
    else ParseResult.path u
  urlunsplit (ParseResult.scheme u) (ParseResult.netloc u) path
    (ParseResult.query u) (ParseResult.fragment u)

/-- The `if/elif` subdomain table inside
`AbstractAccountInfo._construct_s3_api_url`, named separately for the
proofs: `none` models falling through to `return ''`. -/
def subdomainSubst (subdomain : List Char) : Option (List Char) :=
  if subdomain = String.toList "api000" then some (String.toList "s3.us-west-000")
  else if subdomain = String.toList "api001" then some (String.toList "s3.us-west-001")
  else if subdomain = String.toList "api002" then some (String.toList "s3.us-west-002")
  else if subdomain = String.toList "api003" then some (String.toList "s3.eu-central-003")
  else none

/-- Embedding of `AbstractAccountInfo._construct_s3_api_url` (leading underscore dropped):
parse the api URL (`none` models the `ValueError` raised inside
`urlparse`/`urlsplit` when the netloc fails the bracket or `_checknetloc`
validation), two-way unpack `netloc.split('.', maxsplit=1)` (`none` models
the `ValueError` raised by the unpacking when the netloc holds no dot), map
the four known subdomains through the fixed table (`some []` models the
returned empty string for an unknown subdomain), and rebuild the URL with
the substituted leading label. -/
def construct_s3_api_url (api_url : List Char) : Option (List Char) :=
  if urlsplitRaises api_url then none else
  let url := urlparse api_url
  match splitFirst '.' (ParseResult.netloc url) with
  | none => none
  | some (subdomain, domain) =>
    match subdomainSubst subdomain with
    | none => some []
    | some ns =>
      some (geturl ⟨ParseResult.scheme url, ns ++ '.' :: domain,
        ParseResult.path url, ParseResult.params url,
        ParseResult.query url, ParseResult.fragment url⟩)

/-! ### Auth data, `set_auth_data`, read accessors, lease pool -/

/-- Error kinds observable from the embedded operations.
`invalidAllowedStructure` is the spec's name (section 7) for the failure of
the `allowed` validation in `set_auth_data`; the source realizes it as a
Python `assert` statement (an `AssertionError`).
`valueError` models the `ValueError` raised by the two-way unpacking of
`netloc.split('.', maxsplit=1)` inside `_construct_s3_api_url`. -/
inductive StoreError where
  | invalidAllowedStructure : StoreError
  | missingAccountData : StoreError
  | valueError : StoreError
deriving DecidableEq

/-- The record handed to the abstract `_set_auth_data` — i.e. the auth data
as stored by a backing implementation. -/
structure AuthData where
  account_id : List Char
  auth_token : List Char
  api_url : List Char
  download_url : List Char
  minimum_part_size : Nat
  application_key : List Char
  realm : List Char
  s3_api_url : List Char
  allowed : AllowedDict
  application_key_id : Option (List Char)
deriving DecidableEq

/-- Embedding of `AbstractAccountInfo.set_auth_data`, translated line by line:
default the omitted `allowed` to `DEFAULT_ALLOWED`; `assert
self.allowed_is_valid(allowed)` (failure = `invalidAllowedStructure`);
derive `s3_api_url` from `api_url` when it was not supplied (a `ValueError`
escaping the heuristic propagates); finally call `_set_auth_data` — the
`Except.ok` value is exactly the record passed to that abstract store
write, so an `Except.error` result means the write was never reached. -/
def set_auth_data (account_id auth_token api_url download_url : List Char)
    (minimum_part_size : Nat) (application_key realm : List Char)
    (s3_api_url : Option (List Char)) (allowed : Option AllowedDict)
    (application_key_id : Option (List Char)) : Except StoreError AuthData :=
  let allowed1 := allowed.getD DEFAULT_ALLOWED
  if allowed_is_valid allowed1 then
    match s3_api_url with
    | some s =>
      Except.ok ⟨account_id, auth_token, api_url, download_url,
        minimum_part_size, application_key, realm, s, allowed1,
        application_key_id⟩
    | none =>
      match construct_s3_api_url api_url with
      | none => Except.error StoreError.valueError
      | some s =>
        Except.ok ⟨account_id, auth_token, api_url, download_url,
          minimum_part_size, application_key, realm, s, allowed1,
          application_key_id⟩
  else Except.error StoreError.invalidAllowedStructure

/-- Observable state of a store: either unauthenticated or holding one
whole `AuthData` record (the spec's AuthSession "exists only as a whole"). -/
structure AccountState where
  auth : Option AuthData
deriving DecidableEq

/-- Modelled from the spec: `get_application_key_id` is an abstract method
of `AbstractAccountInfo` (no body in the embedded sources); per the spec,
every read accessor "fails with MissingAccountData if no AuthSession is
currently stored" and otherwise returns the stored field. -/
def get_application_key_id (s : AccountState) :
    Except StoreError (Option (List Char)) :=
  match AccountState.auth s with
  | none => Except.error StoreError.missingAccountData
  | some a => Except.ok (AuthData.application_key_id a)

/-- Modelled from the spec: `get_realm` is an abstract method; it fails
with MissingAccountData when no AuthSession is stored, and otherwise
returns the stored realm. -/
def get_realm (s : AccountState) : Except StoreError (List Char) :=
  match AccountState.auth s with
  | none => Except.error StoreError.missingAccountData
  | some a => Except.ok (AuthData.realm a)

/-- Embedding of `AbstractAccountInfo.is_same_key`: compare the cached application key
id and realm with the given ones; the `try/except MissingAccountData:
return False` wrapper makes every accessor failure a plain `false`. Python's
short-circuiting `and` is mirrored by the nested matches. -/
def is_same_key (s : AccountState) (application_key_id : Option (List Char))
    (realm : List Char) : Bool :=
  match get_application_key_id s with
  | Except.error _ => false
  | Except.ok k =>
    if k = application_key_id then
      match get_realm s with
      | Except.error _ => false
      | Except.ok r => decide (r = realm)
    else false

/-- One upload-URL lease: an `(upload_url, upload_auth_token)` pair. -/
structure Lease where
  upload_url : List Char
  upload_auth_token : List Char
deriving DecidableEq

/-- Modelled from the spec: `take_bucket_upload_url` is an abstract method;
per the spec it "atomically removes and returns one arbitrary lease from
the bucket's collection, or an explicit 'none available' if empty". One
atomic Take step on the bucket's pool. -/
def takeStep (pool : List Lease) : Option Lease × List Lease :=
  match pool with
  | [] => (none, [])
  | l :: rest => (some l, rest)

/-- Modelled from the spec: since every Take is atomic, a set of `n`
concurrent Take calls on one bucket's pool is observationally a sequence of
`n` atomic `takeStep`s (the calls are indistinguishable, so every
interleaving is this sequence); returns the per-call results and the final
pool. -/
def runTakes : Nat → List Lease → List (Option Lease) × List Lease
  | 0, pool => ([], pool)
  | n + 1, pool =>
    let s := takeStep pool
    let r := runTakes n s.2
    (s.1 :: r.1, r.2)

/-! ### Helper lemmas about the splitting utilities -/

theorem splitFirst_eq_none {sep : Char} {l : List Char} (h : sep ∉ l) :
    splitFirst sep l = none := by
  induction l with
  | nil => rfl
  | cons c cs ih =>
    have hc : ¬ c = sep := by
      intro hcs; exact h (hcs ▸ List.mem_cons_self c cs)
    have hcs : sep ∉ cs := fun hm => h (List.mem_cons_of_mem c hm)
    simp [splitFirst, hc, ih hcs]

theorem splitFirst_append {sep : Char} {a : List Char} (b : List Char)
    (h : sep ∉ a) : splitFirst sep (a ++ sep :: b) = some (a, b) := by
  induction a with
  | nil => simp [splitFirst]
  | cons c cs ih =>
    have hc : ¬ c = sep := by
      intro hcs; exact h (hcs ▸ List.mem_cons_self c cs)
    have hcs : sep ∉ cs := fun hm => h (List.mem_cons_of_mem c hm)
    simp [splitFirst, hc, ih hcs]

theorem takeUntilAny_append {stops : List Char} {a : List Char}
    (b : List Char) (ha : ∀ c ∈ a, c ∉ stops)
    (hb : b = [] ∨ ∃ c cs, b = c :: cs ∧ c ∈ stops) :
    takeUntilAny stops (a ++ b) = (a, b) := by
  induction a with
  | nil =>
    rcases hb with hb | ⟨c, cs, rfl, hc⟩
    · simp [hb, takeUntilAny]
    · simp [takeUntilAny, hc]
  | cons c cs ih =>
    have hc : c ∉ stops := ha c (List.mem_cons_self c cs)
    have hcs : ∀ x ∈ cs, x ∉ stops := fun x hx => ha x (List.mem_cons_of_mem c hx)
    simp [takeUntilAny, hc, ih hcs]

theorem lowerChars_eq_self {l : List Char} (h : ∀ c ∈ l, Char.toLower c = c) :
    lowerChars l = l := by
  unfold lowerChars
  exact List.map_congr_left h |>.trans l.map_id

/-- A scheme made of scheme characters contains no colon. -/
theorem colon_not_mem_scheme {s : List Char} (h : ∀ c ∈ s, c ∈ scheme_chars) :
    ':' ∉ s := by
  intro hmem
  have := h ':' hmem
  revert this
  decide

theorem splitScheme_eq {s : List Char} (r : List Char) (hne : s ≠ [])
    (hchars : ∀ c ∈ s, c ∈ scheme_chars)
    (hlow : ∀ c ∈ s, Char.toLower c = c) :
    splitScheme (s ++ ':' :: r) = (s, r) := by
  unfold splitScheme
  rw [splitFirst_append r (colon_not_mem_scheme hchars)]
  simp only []
  rw [if_pos ⟨hne, hchars⟩, lowerChars_eq_self hlow]

theorem splitNetloc_eq {host : List Char} (tail : List Char)
    (hh : ∀ c ∈ host, c ∉ (['/', '?', '#'] : List Char))
    (ht : tail = [] ∨ ∃ c cs, tail = c :: cs ∧ c ∈ (['/', '?', '#'] : List Char)) :
    splitNetloc ('/' :: '/' :: (host ++ tail)) = (host, tail) := by
  unfold splitNetloc
  simp [takeUntilAny_append tail hh ht]

theorem splitFragmentPart_of_not_mem {r : List Char} (h : '#' ∉ r) :
    splitFragmentPart r = (r, []) := by
  unfold splitFragmentPart
  rw [splitFirst_eq_none h]

theorem splitFragmentPart_append {a : List Char} (b : List Char)
    (h : '#' ∉ a) : splitFragmentPart (a ++ '#' :: b) = (a, b) := by
  unfold splitFragmentPart
  rw [splitFirst_append b h]

theorem splitQueryPart_of_not_mem {r : List Char} (h : '?' ∉ r) :
    splitQueryPart r = (r, []) := by
  unfold splitQueryPart
  rw [splitFirst_eq_none h]

theorem splitQueryPart_append {a : List Char} (b : List Char)
    (h : '?' ∉ a) : splitQueryPart (a ++ '?' :: b) = (a, b) := by
  unfold splitQueryPart
  rw [splitFirst_append b h]

/-! ### Well-formed absolute URLs assembled from components -/

/-- An optional URL part introduced by a separator: nothing when absent. -/
def optPart (sep : Char) : Option (List Char) → List Char
  | none => []
  | some x => sep :: x

/-- A URL of the shape `scheme://host<path>[?query][#fragment]` assembled
from its components. -/
def assembleUrl (scheme host path : List Char)
    (query fragment : Option (List Char)) : List Char :=
  scheme ++ ':' :: '/' :: '/' ::
    (host ++ (path ++ (optPart '?' query ++ optPart '#' fragment)))

/-- Hypothesis bundle: the components form a well-formed absolute URL.
The conditions mirror what the CPython parsing grammar needs so that each
component is recovered exactly and the netloc validation passes: a nonempty
all-lowercase scheme of scheme characters; an ASCII host free of `/?#` and
of square brackets (a mismatched bracket or an NFKC-unstable non-ASCII
netloc makes `urlsplit` raise `ValueError`); a path that is empty or rooted
and free of `?#;`; a query free of `#`; and, when present, a nonempty query
and fragment (a present-but-empty one is dropped by `geturl`). -/
structure WellFormedUrl (scheme host path : List Char)
    (query fragment : Option (List Char)) : Prop where
  scheme_ne : scheme ≠ []
  scheme_chars_ok : ∀ c ∈ scheme, c ∈ scheme_chars
  scheme_lower : ∀ c ∈ scheme, Char.toLower c = c
  host_ok : ∀ c ∈ host, c ∉ (['/', '?', '#'] : List Char)
  host_ascii : ∀ c ∈ host, c.toNat < 128
  host_no_lbracket : '[' ∉ host
  host_no_rbracket : ']' ∉ host
  path_rooted : path = [] ∨ ∃ ps, path = '/' :: ps
  path_no_query : '?' ∉ path
  path_no_fragment : '#' ∉ path
  path_no_semicolon : ';' ∉ path
  query_no_fragment : ∀ x, query = some x → '#' ∉ x
  query_ne : query ≠ some []
  fragment_ne : fragment ≠ some []

theorem urlsplit_assemble {scheme host path : List Char}
    {query fragment : Option (List Char)}
    (h : WellFormedUrl scheme host path query fragment) :
    urlsplit (assembleUrl scheme host path query fragment) =
      ⟨scheme, host, path, query.getD [], fragment.getD []⟩ := by
  have htail : path ++ (optPart '?' query ++ optPart '#' fragment) = [] ∨
      ∃ c cs, path ++ (optPart '?' query ++ optPart '#' fragment) = c :: cs ∧
        c ∈ (['/', '?', '#'] : List Char) := by
    rcases h.path_rooted with hp | ⟨ps, hp⟩
    · subst hp
      cases query with
      | some x =>
        right
        exact ⟨'?', x ++ optPart '#' fragment, by simp [optPart], by decide⟩
      | none =>
        cases fragment with
        | some y => right; exact ⟨'#', y, by simp [optPart], by decide⟩
        | none => left; simp [optPart]
    · subst hp
      right
      exact ⟨'/', ps ++ (optPart '?' query ++ optPart '#' fragment),
        by simp, by decide⟩
  have hnot : '#' ∉ path ++ optPart '?' query := by
    intro hm
    rcases List.mem_append.mp hm with hm | hm
    · exact h.path_no_fragment hm
    · cases query with
      | none => simp [optPart] at hm
      | some x =>
        have h1 : '#' ∈ x := by simpa [optPart] using hm
        exact h.query_no_fragment x rfl h1
  have h1 : splitScheme (assembleUrl scheme host path query fragment) =
      (scheme, '/' :: '/' ::
        (host ++ (path ++ (optPart '?' query ++ optPart '#' fragment)))) := by
    unfold assembleUrl
    exact splitScheme_eq _ h.scheme_ne h.scheme_chars_ok h.scheme_lower
  have h2 : splitNetloc ('/' :: '/' ::
      (host ++ (path ++ (optPart '?' query ++ optPart '#' fragment)))) =
      (host, path ++ (optPart '?' query ++ optPart '#' fragment)) :=
    splitNetloc_eq _ h.host_ok htail
  have h3 : splitFragmentPart
      (path ++ (optPart '?' query ++ optPart '#' fragment)) =
      (path ++ optPart '?' query, fragment.getD []) := by
    cases fragment with
    | some y =>
      have := splitFragmentPart_append y hnot
      simpa [optPart, List.append_assoc] using this
    | none =>
      have := splitFragmentPart_of_not_mem hnot
      simpa [optPart, List.append_assoc] using this
  have h4 : splitQueryPart (path ++ optPart '?' query) =
      (path, query.getD []) := by
    cases query with
    | some x =>
      simpa [optPart] using splitQueryPart_append x h.path_no_query
    | none =>
      simpa [optPart] using splitQueryPart_of_not_mem h.path_no_query
  simp [urlsplit, h1, h2, h3, h4]

theorem urlparse_assemble {scheme host path : List Char}
    {query fragment : Option (List Char)}
    (h : WellFormedUrl scheme host path query fragment) :
    urlparse (assembleUrl scheme host path query fragment) =
      ⟨scheme, host, path, [], query.getD [], fragment.getD []⟩ := by
  unfold urlparse
  rw [urlsplit_assemble h]
  simp [h.path_no_semicolon]

theorem geturl_assemble {scheme netloc path : List Char}
    {query fragment : Option (List Char)}
    (hs : scheme ≠ []) (hp : path = [] ∨ ∃ ps, path = '/' :: ps)
    (hq : query ≠ some []) (hf : fragment ≠ some []) (hn : netloc ≠ []) :
    geturl ⟨scheme, netloc, path, [], query.getD [], fragment.getD []⟩ =
      scheme ++ ':' :: '/' :: '/' ::
        (netloc ++ (path ++ (optPart '?' query ++ optPart '#' fragment))) := by
  have hpath : (if path ≠ [] ∧ path.take 1 ≠ ['/'] then '/' :: path else path)
      = path := by
    rcases hp with hp | ⟨ps, hp⟩ <;> subst hp <;> simp
  cases query with
  | none =>
    cases fragment with
    | none => simp [geturl, urlunsplit, hs, hn, hpath, optPart]
    | some y =>
      have hy : y ≠ [] := fun he => hf (by rw [he])
      simp [geturl, urlunsplit, hs, hn, hpath, optPart, hy]
  | some x =>
    have hx : x ≠ [] := fun he => hq (by rw [he])
    cases fragment with
    | none => simp [geturl, urlunsplit, hs, hn, hpath, optPart, hx]
    | some y =>
      have hy : y ≠ [] := fun he => hf (by rw [he])
      simp [geturl, urlunsplit, hs, hn, hpath, optPart, hx, hy]

theorem construct_eq_of_raises {api : List Char}
    (hr : urlsplitRaises api = true) : construct_s3_api_url api = none := by
  simp only [construct_s3_api_url, hr, if_true]

theorem construct_eq_of_split_some {api sub d : List Char}
    (hr : urlsplitRaises api = false)
    (h : splitFirst '.' (ParseResult.netloc (urlparse api)) = some (sub, d)) :
    construct_s3_api_url api =
      match subdomainSubst sub with
      | none => some []
      | some ns =>
        some (geturl ⟨ParseResult.scheme (urlparse api), ns ++ '.' :: d,
          ParseResult.path (urlparse api), ParseResult.params (urlparse api),
          ParseResult.query (urlparse api), ParseResult.fragment (urlparse api)⟩) := by
  simp only [construct_s3_api_url, hr, Bool.false_eq_true, if_false, h]

theorem construct_eq_of_split_none {api : List Char}
    (h : splitFirst '.' (ParseResult.netloc (urlparse api)) = none) :
    construct_s3_api_url api = none := by
  cases hr : urlsplitRaises api with
  | true => simp only [construct_s3_api_url, hr, if_true]
  | false => simp only [construct_s3_api_url, hr, Bool.false_eq_true, if_false, h]

/-- The fixed substitution table of §4.3, as (subdomain, replacement) pairs. -/
def s3SubdomainTable : List (List Char × List Char) :=
  [(String.toList "api000", String.toList "s3.us-west-000"),
   (String.toList "api001", String.toList "s3.us-west-001"),
   (String.toList "api002", String.toList "s3.us-west-002"),
   (String.toList "api003", String.toList "s3.eu-central-003")]

/-! ### The claims -/

/-- C4 (amended): for every apiUrl assembled from well-formed components —
in particular with a host that CPython's netloc validation accepts: ASCII
and bracket-free — whose leading label `sub` is one of the known
subdomains, `_construct_s3_api_url` substitutes only that leading label per
the fixed table (api000→s3.us-west-000, api001→s3.us-west-001,
api002→s3.us-west-002, api003→s3.eu-central-003) and preserves the scheme,
the rest of the host, the path, the query and the fragment. The claim as
originally stated, over every apiUrl with a recognized leading label, is
refuted by the counterexample below: a mismatched bracket in the host makes
`urlparse` raise `ValueError` instead. -/
theorem construct_s3_api_url_known_subdomain
    (scheme sub ns d path : List Char) (query fragment : Option (List Char))
    (hsub : (sub, ns) ∈ s3SubdomainTable)
    (h : WellFormedUrl scheme (sub ++ '.' :: d) path query fragment) :
    construct_s3_api_url
        (assembleUrl scheme (sub ++ '.' :: d) path query fragment) =
      some (assembleUrl scheme (ns ++ '.' :: d) path query fragment) := by
  have hparse := urlparse_assemble h
  have hnet : ParseResult.netloc (urlparse
      (assembleUrl scheme (sub ++ '.' :: d) path query fragment)) =
      sub ++ '.' :: d := by rw [hparse]
  have hsch : ParseResult.scheme (urlparse
      (assembleUrl scheme (sub ++ '.' :: d) path query fragment)) = scheme := by
    rw [hparse]
  have hpth : ParseResult.path (urlparse
      (assembleUrl scheme (sub ++ '.' :: d) path query fragment)) = path := by
    rw [hparse]
  have hpar : ParseResult.params (urlparse
      (assembleUrl scheme (sub ++ '.' :: d) path query fragment)) = [] := by
    rw [hparse]
  have hqy : ParseResult.query (urlparse
      (assembleUrl scheme (sub ++ '.' :: d) path query fragment)) =
      query.getD [] := by rw [hparse]
  have hfr : ParseResult.fragment (urlparse
      (assembleUrl scheme (sub ++ '.' :: d) path query fragment)) =
      fragment.getD [] := by rw [hparse]
  have hprops : '.' ∉ sub ∧ subdomainSubst sub = some ns := by
    simp only [s3SubdomainTable, List.mem_cons, List.mem_singleton,
      Prod.mk.injEq, List.not_mem_nil, or_false] at hsub
    rcases hsub with ⟨rfl, rfl⟩ | ⟨rfl, rfl⟩ | ⟨rfl, rfl⟩ | ⟨rfl, rfl⟩ <;>
      exact ⟨by decide, by decide⟩
  have hsplit : splitFirst '.' (ParseResult.netloc (urlparse
      (assembleUrl scheme (sub ++ '.' :: d) path query fragment))) =
      some (sub, d) := by
    rw [hnet]; exact splitFirst_append d hprops.1
  have hascii : (sub ++ '.' :: d).all (fun c => decide (c.toNat < 128)) =
      true :=
    List.all_eq_true.mpr (fun x hx => decide_eq_true (h.host_ascii x hx))
  have hraise : urlsplitRaises
      (assembleUrl scheme (sub ++ '.' :: d) path query fragment) = false := by
    unfold urlsplitRaises
    rw [urlsplit_assemble h]
    simp [urlsplitNetlocRejects, h.host_no_lbracket, h.host_no_rbracket,
      hascii]
  rw [construct_eq_of_split_some hraise hsplit]
  simp only [hprops.2, hsch, hpth, hpar, hqy, hfr]
  rw [geturl_assemble h.scheme_ne h.path_rooted h.query_ne h.fragment_ne
    (by simp)]
  simp [assembleUrl]

/-- Closed instance of C4 at the spec's own example: the components
assemble to the literal URL https://api002.backblazeb2.com/path and the
derived URL is https://s3.us-west-002.backblazeb2.com/path. -/
theorem construct_s3_api_url_known_subdomain_witness :
    assembleUrl (String.toList "https")
        (String.toList "api002" ++ '.' :: String.toList "backblazeb2.com")
        (String.toList "/path") none none =
      String.toList "https://api002.backblazeb2.com/path" ∧
    assembleUrl (String.toList "https")
        (String.toList "s3.us-west-002" ++ '.' :: String.toList "backblazeb2.com")
        (String.toList "/path") none none =
      String.toList "https://s3.us-west-002.backblazeb2.com/path" ∧
    construct_s3_api_url (assembleUrl (String.toList "https")
        (String.toList "api002" ++ '.' :: String.toList "backblazeb2.com")
        (String.toList "/path") none none) =
      some (assembleUrl (String.toList "https")
        (String.toList "s3.us-west-002" ++ '.' :: String.toList "backblazeb2.com")
        (String.toList "/path") none none) :=
  ⟨by decide, by decide,
   construct_s3_api_url_known_subdomain (String.toList "https")
     (String.toList "api002") (String.toList "s3.us-west-002")
     (String.toList "backblazeb2.com") (String.toList "/path") none none
     (by decide)
     ⟨by decide, by decide, by decide, by decide, by decide, by decide,
      by decide, Or.inr ⟨String.toList "path", by decide⟩, by decide,
      by decide, by decide, (fun x hx => nomatch hx), by decide,
      by decide⟩⟩

/-- C4 counterexample: the apiUrl https://api002.ba[d.com/path has the
recognized leading label api002, yet `_construct_s3_api_url` does not
produce the substituted URL: the mismatched bracket in the host makes
`urlsplit` raise `ValueError` (modelled as `none`). -/
theorem construct_s3_api_url_known_subdomain_cex :
    splitFirst '.' (SplitResult.netloc (urlsplit
        (String.toList "https://api002.ba[d.com/path"))) =
      some (String.toList "api002", String.toList "ba[d.com") ∧
    construct_s3_api_url (String.toList "https://api002.ba[d.com/path") =
      none ∧
    construct_s3_api_url (String.toList "https://api002.ba[d.com/path") ≠
      some (String.toList "https://s3.us-west-002.ba[d.com/path") := by
  decide

/-- C5 (amended): for every apiUrl that `urlsplit` accepts (its netloc
passes the bracket and `_checknetloc` validation, i.e. the parse does not
raise) and whose host's leading label (the part of the netloc before its
first dot) is none of api000, api001, api002, api003,
`_construct_s3_api_url` returns the empty string and does not fail. The
claim as originally stated, over every such apiUrl without the
acceptance restriction, is refuted by the counterexample below: a
mismatched bracket in the netloc makes `urlparse` raise `ValueError`
instead of returning the empty string. -/
theorem construct_s3_api_url_unknown_subdomain
    (api_url sub d : List Char)
    (hraise : urlsplitRaises api_url = false)
    (hsplit : splitFirst '.' (ParseResult.netloc (urlparse api_url)) =
      some (sub, d))
    (h0 : sub ≠ String.toList "api000") (h1 : sub ≠ String.toList "api001")
    (h2 : sub ≠ String.toList "api002") (h3 : sub ≠ String.toList "api003") :
    construct_s3_api_url api_url = some [] := by
  rw [construct_eq_of_split_some hraise hsplit]
  have hchain : subdomainSubst sub = none := by
    unfold subdomainSubst
    rw [if_neg h0, if_neg h1, if_neg h2, if_neg h3]
  simp only [hchain]

/-- Closed instance of C5 at https://example.com/x . -/
theorem construct_s3_api_url_unknown_subdomain_witness :
    construct_s3_api_url (String.toList "https://example.com/x") = some [] :=
  construct_s3_api_url_unknown_subdomain (String.toList "https://example.com/x")
    (String.toList "example") (String.toList "com") (by decide) (by decide)
    (by decide) (by decide) (by decide) (by decide)

/-- C5 counterexample: the apiUrl https://exa[mple.com/x has an
unrecognized leading label (exa[mple, none of the four known subdomains),
yet `_construct_s3_api_url` does not return the empty string: the
mismatched bracket makes `urlsplit` raise `ValueError` (modelled as
`none`). -/
theorem construct_s3_api_url_unknown_subdomain_cex :
    splitFirst '.' (SplitResult.netloc (urlsplit
        (String.toList "https://exa[mple.com/x"))) =
      some (String.toList "exa[mple", String.toList "com") ∧
    String.toList "exa[mple" ≠ String.toList "api000" ∧
    String.toList "exa[mple" ≠ String.toList "api001" ∧
    String.toList "exa[mple" ≠ String.toList "api002" ∧
    String.toList "exa[mple" ≠ String.toList "api003" ∧
    construct_s3_api_url (String.toList "https://exa[mple.com/x") = none ∧
    construct_s3_api_url (String.toList "https://exa[mple.com/x") ≠
      some [] := by decide

/-- C9: for every api_url whose network location contains no dot,
`_construct_s3_api_url` fails (the two-way unpack of
`netloc.split('.', maxsplit=1)` raises `ValueError`), so `set_auth_data`
called with a null s3_api_url and such an api_url (and an `allowed` that
passes validation, so the assert is crossed first) fails with an error that
is neither `InvalidAllowedStructure` nor the empty-string sentinel. -/
theorem construct_no_dot_value_error
    (account_id auth_token download_url : List Char) (minimum_part_size : Nat)
    (application_key realm : List Char)
    (application_key_id : Option (List Char)) (api_url : List Char)
    (allowed : Option AllowedDict)
    (hdot : '.' ∉ ParseResult.netloc (urlparse api_url))
    (hval : allowed_is_valid (allowed.getD DEFAULT_ALLOWED) = true) :
    construct_s3_api_url api_url = none ∧
    set_auth_data account_id auth_token api_url download_url minimum_part_size
        application_key realm none allowed application_key_id =
      Except.error StoreError.valueError ∧
    StoreError.valueError ≠ StoreError.invalidAllowedStructure := by
  have hc : construct_s3_api_url api_url = none :=
    construct_eq_of_split_none (splitFirst_eq_none hdot)
  refine ⟨hc, ?_, by decide⟩
  simp [set_auth_data, hval, hc]

/-- Closed instance of C9 at https://localhost/x . -/
theorem construct_no_dot_value_error_witness :
    construct_s3_api_url (String.toList "https://localhost/x") = none ∧
    set_auth_data (String.toList "a") (String.toList "t")
        (String.toList "https://localhost/x") (String.toList "d") 100
        (String.toList "k") (String.toList "production") none none none =
      Except.error StoreError.valueError ∧
    StoreError.valueError ≠ StoreError.invalidAllowedStructure :=
  construct_no_dot_value_error (String.toList "a") (String.toList "t")
    (String.toList "d") 100 (String.toList "k") (String.toList "production")
    none (String.toList "https://localhost/x") none (by decide) (by decide)

/-- C1: `allowed_is_valid(allowed)` returns true iff the keys bucketId,
bucketName, capabilities and namePrefix are all present and
(`allowed['bucketId'] is not None` or `allowed['bucketName'] is None`).
A field equal to `Option.none` models an absent key, `some PyVal.pyNone`
models a key present with the Python `None` value. -/
theorem allowed_is_valid_iff (a : AllowedDict) :
    allowed_is_valid a = true ↔
      (AllowedDict.bucketId a ≠ none ∧ AllowedDict.bucketName a ≠ none ∧
       AllowedDict.capabilities a ≠ none ∧ AllowedDict.namePrefixKey a ≠ none ∧
       (AllowedDict.bucketId a ≠ some PyVal.pyNone ∨
        AllowedDict.bucketName a = some PyVal.pyNone)) := by
  obtain ⟨bi, bn, cp, np⟩ := a
  cases bi <;> cases bn <;> cases cp <;> cases np <;>
    simp [allowed_is_valid]

/-- Closed instance of C1: the spec's example of a valid structure,
bucketId "5", bucketName null, capabilities present, namePrefix null. -/
theorem allowed_is_valid_iff_witness :
    allowed_is_valid ⟨some (PyVal.pyStr (String.toList "5")),
      some PyVal.pyNone, some (PyVal.pyStrList []), some PyVal.pyNone⟩ =
      true :=
  (allowed_is_valid_iff _).mpr (by decide)

/-- C2: `set_auth_data` with a non-null `allowed` that fails the validity
predicate fails with the `InvalidAllowedStructure` error kind (the failed
`assert allowed_is_valid(allowed)`), and the `_set_auth_data` store write is
not reached — an `Except.ok` value of the embedding is by construction
exactly the record handed to `_set_auth_data`. -/
theorem set_auth_data_invalid_allowed_rejected
    (account_id auth_token api_url download_url : List Char)
    (minimum_part_size : Nat) (application_key realm : List Char)
    (s3_api_url : Option (List Char)) (a : AllowedDict)
    (application_key_id : Option (List Char))
    (hinv : allowed_is_valid a = false) :
    set_auth_data account_id auth_token api_url download_url minimum_part_size
        application_key realm s3_api_url (some a) application_key_id =
      Except.error StoreError.invalidAllowedStructure := by
  simp [set_auth_data, hinv]

/-- Closed instance of C2 at an empty dict (all four keys absent). -/
theorem set_auth_data_invalid_allowed_rejected_witness :
    set_auth_data [] [] [] [] 0 [] [] none (some ⟨none, none, none, none⟩)
        none =
      Except.error StoreError.invalidAllowedStructure :=
  set_auth_data_invalid_allowed_rejected [] [] [] [] 0 [] [] none
    ⟨none, none, none, none⟩ none (by decide)

/-- C3: when the `allowed` argument is omitted (null), the allowed
structure stored by `set_auth_data` is the legacy default
`{bucketId: null, bucketName: null, capabilities: ALL_CAPABILITIES,
namePrefix: null}`, i.e. `DEFAULT_ALLOWED`. -/
theorem set_auth_data_default_allowed
    (account_id auth_token api_url download_url : List Char)
    (minimum_part_size : Nat) (application_key realm : List Char)
    (s3_api_url : Option (List Char))
    (application_key_id : Option (List Char)) (st : AuthData)
    (hok : set_auth_data account_id auth_token api_url download_url
        minimum_part_size application_key realm s3_api_url none
        application_key_id = Except.ok st) :
    AuthData.allowed st = DEFAULT_ALLOWED := by
  have hv : allowed_is_valid DEFAULT_ALLOWED = true := by decide
  simp only [set_auth_data, Option.getD_none, hv, if_true] at hok
  cases s3_api_url with
  | some s => cases hok; rfl
  | none =>
    cases hc : construct_s3_api_url api_url with
    | none => rw [hc] at hok; cases hok
    | some s => rw [hc] at hok; cases hok; rfl

/-- Closed instance of C3: a call with `allowed` omitted stores
`DEFAULT_ALLOWED`. -/
theorem set_auth_data_default_allowed_witness :
    AuthData.allowed ⟨String.toList "a", String.toList "t",
      String.toList "u", String.toList "d", 100, String.toList "k",
      String.toList "production", String.toList "s", DEFAULT_ALLOWED, none⟩ =
      DEFAULT_ALLOWED :=
  set_auth_data_default_allowed (String.toList "a") (String.toList "t")
    (String.toList "u") (String.toList "d") 100 (String.toList "k")
    (String.toList "production") (some (String.toList "s")) none
    ⟨String.toList "a", String.toList "t", String.toList "u",
     String.toList "d", 100, String.toList "k", String.toList "production",
     String.toList "s", DEFAULT_ALLOWED, none⟩ rfl

/-- C10: `DEFAULT_ALLOWED` satisfies `allowed_is_valid`, so a
`set_auth_data` call with `allowed` omitted (null) passes the validity
check and never fails with `InvalidAllowedStructure`. -/
theorem default_allowed_accepts
    (account_id auth_token api_url download_url : List Char)
    (minimum_part_size : Nat) (application_key realm : List Char)
    (s3_api_url : Option (List Char))
    (application_key_id : Option (List Char)) :
    allowed_is_valid DEFAULT_ALLOWED = true ∧
    set_auth_data account_id auth_token api_url download_url minimum_part_size
        application_key realm s3_api_url none application_key_id ≠
      Except.error StoreError.invalidAllowedStructure := by
  have hv : allowed_is_valid DEFAULT_ALLOWED = true := by decide
  refine ⟨hv, ?_⟩
  simp only [set_auth_data, Option.getD_none, hv, if_true]
  cases s3_api_url with
  | some s => simp
  | none => cases hc : construct_s3_api_url api_url <;> simp [hc]

/-- Closed instance of C10. -/
theorem default_allowed_accepts_witness :
    set_auth_data (String.toList "a") (String.toList "t")
        (String.toList "https://api002.backblazeb2.com") (String.toList "d")
        100 (String.toList "k") (String.toList "production") none none none ≠
      Except.error StoreError.invalidAllowedStructure :=
  (default_allowed_accepts (String.toList "a") (String.toList "t")
    (String.toList "https://api002.backblazeb2.com") (String.toList "d") 100
    (String.toList "k") (String.toList "production") none none).2

/-- C7: when the s3_api_url argument is null, the stored s3 API URL is the
value derived by `_construct_s3_api_url(api_url)` (and its `ValueError`
propagates); when s3_api_url is non-null it is stored unchanged and the
derivation heuristic is not invoked — the result does not depend on
`construct_s3_api_url api_url` at all. -/
theorem set_auth_data_s3_url_selection
    (account_id auth_token api_url download_url : List Char)
    (minimum_part_size : Nat) (application_key realm : List Char)
    (allowed : Option AllowedDict) (application_key_id : Option (List Char))
    (u : List Char)
    (hval : allowed_is_valid (allowed.getD DEFAULT_ALLOWED) = true) :
    set_auth_data account_id auth_token api_url download_url minimum_part_size
        application_key realm none allowed application_key_id =
      (match construct_s3_api_url api_url with
       | none => Except.error StoreError.valueError
       | some s =>
         Except.ok ⟨account_id, auth_token, api_url, download_url,
           minimum_part_size, application_key, realm, s,
           allowed.getD DEFAULT_ALLOWED, application_key_id⟩) ∧
    set_auth_data account_id auth_token api_url download_url minimum_part_size
        application_key realm (some u) allowed application_key_id =
      Except.ok ⟨account_id, auth_token, api_url, download_url,
        minimum_part_size, application_key, realm, u,
        allowed.getD DEFAULT_ALLOWED, application_key_id⟩ := by
  constructor <;> simp [set_auth_data, hval]

/-- Closed instance of C7: with s3_api_url null the stored URL is the
derived one; with s3_api_url supplied it is stored verbatim. -/
theorem set_auth_data_s3_url_selection_witness :
    set_auth_data [] [] (String.toList "https://api002.backblazeb2.com/x")
        [] 0 [] [] none none none =
      Except.ok ⟨[], [], String.toList "https://api002.backblazeb2.com/x",
        [], 0, [], [], String.toList "https://s3.us-west-002.backblazeb2.com/x",
        DEFAULT_ALLOWED, none⟩ ∧
    set_auth_data [] [] (String.toList "https://api002.backblazeb2.com/x")
        [] 0 [] [] (some (String.toList "custom")) none none =
      Except.ok ⟨[], [], String.toList "https://api002.backblazeb2.com/x",
        [], 0, [], [], String.toList "custom", DEFAULT_ALLOWED, none⟩ := by
  have h := set_auth_data_s3_url_selection [] []
    (String.toList "https://api002.backblazeb2.com/x") [] 0 [] [] none none
    (String.toList "custom") (by decide)
  exact ⟨h.1.trans (by rfl), h.2⟩

/-- C6: `is_same_key(keyId, realm)` returns true iff a session exists whose
application key id equals keyId and whose realm equals realm; on an
unauthenticated store (where the underlying reads fail with
MissingAccountData) it returns false — it is total, so it never
propagates the error. -/
theorem is_same_key_iff (s : AccountState) (k : Option (List Char))
    (r : List Char) :
    (is_same_key s k r = true ↔
      ∃ a, AccountState.auth s = some a ∧
        AuthData.application_key_id a = k ∧ AuthData.realm a = r) ∧
    (AccountState.auth s = none → is_same_key s k r = false) := by
  obtain ⟨auth⟩ := s
  cases auth with
  | none => simp [is_same_key, get_application_key_id, get_realm]
  | some a =>
    constructor
    · by_cases hk : AuthData.application_key_id a = k <;>
        by_cases hr : AuthData.realm a = r <;>
        simp [is_same_key, get_application_key_id, get_realm, hk, hr]
    · intro h; exact absurd h (by simp)

/-- Closed instance of C6: on an unauthenticated store `is_same_key`
returns false rather than raising. -/
theorem is_same_key_iff_witness :
    is_same_key ⟨none⟩ (some (String.toList "key")) (String.toList "production")
      = false :=
  (is_same_key_iff ⟨none⟩ (some (String.toList "key"))
    (String.toList "production")).2 rfl

theorem runTakes_nil (n : Nat) :
    runTakes n ([] : List Lease) = (List.replicate n none, []) := by
  induction n with
  | zero => rfl
  | succ m ih => simp [runTakes, takeStep, ih, List.replicate_succ]

theorem runTakes_full (pool : List Lease) (K : Nat) :
    runTakes (pool.length + K) pool =
      (pool.map some ++ List.replicate K none, []) := by
  induction pool with
  | nil => simpa using runTakes_nil K
  | cons l rest ih =>
    have hlen : (l :: rest).length + K = (rest.length + K) + 1 := by
      simp [List.length_cons]; omega
    rw [hlen]
    simp [runTakes, takeStep, ih]

theorem filterMap_id_map_some (pool : List Lease) :
    List.filterMap id (pool.map some) = pool := by
  induction pool with
  | nil => rfl
  | cons x xs ih => simp [ih]

theorem filterMap_id_replicate_none (K : Nat) :
    List.filterMap id (List.replicate K (none : Option Lease)) = [] := by
  induction K with
  | zero => rfl
  | succ m ih => simp [List.replicate_succ, ih]

theorem count_none_map_some (pool : List Lease) :
    List.count (none : Option Lease) (pool.map some) = 0 := by
  induction pool with
  | nil => rfl
  | cons x xs ih => simp [List.count_cons, ih]

/-- C8: seed a bucket pool with N distinct leases and run N+K Take calls
(K>0). Because the spec requires every Take to be an atomic removal, any
concurrent execution is an interleaving of the N+K atomic steps, and the
calls are indistinguishable, so every interleaving is `runTakes (N+K)`.
The successes are exactly the N pool leases (so they are N distinct pairs,
none dispensed twice and none lost), the other K calls get the "none
available" sentinel, and the pool ends empty. -/
theorem take_bucket_upload_url_lease_exactness
    (pool : List Lease) (K : Nat) (hnd : List.Nodup pool) (hK : 0 < K) :
    List.filterMap id (runTakes (pool.length + K) pool).1 = pool ∧
    List.Nodup (List.filterMap id (runTakes (pool.length + K) pool).1) ∧
    List.count none (runTakes (pool.length + K) pool).1 = K ∧
    (runTakes (pool.length + K) pool).2 = [] := by
  rw [runTakes_full]
  have h1 : List.filterMap id (pool.map some ++
      List.replicate K (none : Option Lease)) = pool := by
    rw [List.filterMap_append, filterMap_id_map_some,
      filterMap_id_replicate_none, List.append_nil]
  refine ⟨h1, by rw [h1]; exact hnd, ?_, rfl⟩
  rw [List.count_append, count_none_map_some, List.count_replicate_self]
  exact Nat.zero_add K

/-- Closed instance of C8 with N = 2 distinct leases and K = 1 extra
caller: two successes dispensing both leases, one "none available". -/
theorem take_bucket_upload_url_lease_exactness_witness :
    List.filterMap id (runTakes 3 [Lease.mk (String.toList "u1")
        (String.toList "t1"), Lease.mk (String.toList "u2")
        (String.toList "t2")]).1 =
      [Lease.mk (String.toList "u1") (String.toList "t1"),
       Lease.mk (String.toList "u2") (String.toList "t2")] ∧
    List.Nodup (List.filterMap id (runTakes 3 [Lease.mk (String.toList "u1")
        (String.toList "t1"), Lease.mk (String.toList "u2")
        (String.toList "t2")]).1) ∧
    List.count none (runTakes 3 [Lease.mk (String.toList "u1")
        (String.toList "t1"), Lease.mk (String.toList "u2")
        (String.toList "t2")]).1 = 1 ∧
    (runTakes 3 [Lease.mk (String.toList "u1") (String.toList "t1"),
        Lease.mk (String.toList "u2") (String.toList "t2")]).2 = [] :=
  take_bucket_upload_url_lease_exactness
    [Lease.mk (String.toList "u1") (String.toList "t1"),
     Lease.mk (String.toList "u2") (String.toList "t2")] 1
    (by decide) (by decide)

end B2
